import Mathlib

/- Verification of the query-understanding / retrieval / response engine of the
   optommarket storefront bot: a shallow embedding of the relevant parts of
   `bot/services/ai_service.py` and `bot/services/product_service.py`.

   External effects (the Gemini model calls, the SQL catalog, sleeping) are
   modelled as explicit inputs: the model call of `get_response` is a function
   from attempt index to its outcome, the catalog is a function from the
   lookup arguments to a product list, and the sleeps performed are collected
   in an output trace.  All Python dict stores are embedded as association
   lists so that every definition is executable. -/

namespace OptomMarket

/-- One entry of the per-user context `AIService.user_contexts`: the Python
dict `{"role": ..., "text": ...}` appended in `get_response` (lines 280-281). -/
structure Turn where
  role : String
  text : String
deriving DecidableEq, Repr

/-- The store `AIService.user_contexts : Dict[int, List[Dict]]`, embedded as an
association list keyed by user id (`none` from `storeGet` models an absent
key). -/
abbrev Store := List (Nat × List Turn)

/-- Python `store.get(user_id)` / `user_id in store` on the context dict. -/
def storeGet : Store → Nat → Option (List Turn)
  | [], _ => Option.none
  | (k, v) :: rest, u => if k = u then some v else storeGet rest u

/-- Python `store[user_id] = value` on the context dict. -/
def storeSet : Store → Nat → List Turn → Store
  | [], u, v => [(u, v)]
  | (k, w) :: rest, u, v =>
    if k = u then (k, v) :: rest else (k, w) :: storeSet rest u v

/-- Python `del store[user_id]` (applied after an `in` check, so deleting an
absent key is a no-op). -/
def storeDel : Store → Nat → Store
  | [], _ => []
  | (k, w) :: rest, u =>
    if k = u then storeDel rest u else (k, w) :: storeDel rest u

/-- Python list slicing `l[-n:]`: the last `n` elements of `l` (all of `l`
when it is shorter than `n`). -/
def takeLast (n : Nat) (l : List α) : List α := l.drop (l.length - n)

/-- A Python value reaching `ProductService.format_price`; the claims exercise
`None`, strings and numbers.  A (finite) Python float is carried as its exact
binary64 decomposition: sign, integral mantissa `m` and binary exponent `e`,
denoting `(-1)^neg * m * 2^e`.  Non-finite float inputs are not represented
(prices never are). -/
inductive PyVal where
  | none
  | str (s : String)
  | int (n : Int)
  | float (neg : Bool) (m : Nat) (e : Int)
deriving DecidableEq, Repr

/-- Python truthiness of a `PyVal` (`if price`): `None`, empty strings and
zero (of either sign) are falsy. -/
def pyTruthy : PyVal → Bool
  | PyVal.none => false
  | PyVal.str s => !s.isEmpty
  | PyVal.int n => n != 0
  | PyVal.float _ m _ => m != 0

/-- Python `str.lower()` on one character, on the repertoire this bilingual
(Uzbek/Russian) system uses: Basic Latin `A-Z`, the Latin-1 uppercase range
`À-Þ` (excluding the multiplication sign) and the full Cyrillic uppercase
ranges `Ѐ-Џ` and `А-Я`; other code points are left unchanged. -/
def charLower (c : Char) : Char :=
  let n := c.toNat
  if 0x41 ≤ n ∧ n ≤ 0x5A then Char.ofNat (n + 0x20)
  else if 0xC0 ≤ n ∧ n ≤ 0xDE ∧ n ≠ 0xD7 then Char.ofNat (n + 0x20)
  else if 0x400 ≤ n ∧ n ≤ 0x40F then Char.ofNat (n + 0x50)
  else if 0x410 ≤ n ∧ n ≤ 0x42F then Char.ofNat (n + 0x20)
  else c

/-- The whitespace `float(str)` strips: space, `\t`, `\n`, `\r`, `\v`,
`\f`. -/
def isPySpace (c : Char) : Bool :=
  c = ' ' ∨ c = '\t' ∨ c = '\n' ∨ c = '\r' ∨ c.toNat = 11 ∨ c.toNat = 12

/-- A Python `digitpart`: greedily consume ASCII digits with underscores
allowed strictly between two digits (`1_000`), returning the digits read and
the unconsumed rest.  (Python additionally accepts non-ASCII decimal digits;
those are outside this model.) -/
def digitsPartAux : List Char → List Nat → (List Nat × List Char)
  | [], acc => (acc.reverse, [])
  | c :: rest, acc =>
    if c.isDigit then digitsPartAux rest ((c.toNat - 48) :: acc)
    else if c = '_' then
      match acc, rest with
      | _ :: _, d :: rest2 =>
        if d.isDigit then digitsPartAux rest2 ((d.toNat - 48) :: acc)
        else (acc.reverse, c :: rest)
      | _, _ => (acc.reverse, c :: rest)
    else (acc.reverse, c :: rest)

/-- Decimal value of a most-significant-first digit list. -/
def natOfDigits (ds : List Nat) : Nat := ds.foldl (fun a d => a * 10 + d) 0

/-- Round `n / d` (with `d > 0`) to the nearest integer, ties to even - the
rounding IEEE-754 and Python's `:,.0f` both use. -/
def roundHalfEven (n d : Nat) : Nat :=
  let q := n / d
  let r := n % d
  if 2 * r < d then q
  else if d < 2 * r then q + 1
  else if q % 2 = 0 then q else q + 1

/-- Number of binary digits of `n` (`0` for `0`), by fuelled structural
recursion so that it evaluates in the kernel. -/
def bitlenAux : Nat → Nat → Nat
  | 0, _ => 0
  | fuel + 1, n => if n = 0 then 0 else bitlenAux fuel (n / 2) + 1

/-- Number of binary digits of `n` (`n ≥ 1` needs `⌊log2 n⌋ + 1 ≤ n` steps). -/
def bitlen (n : Nat) : Nat := bitlenAux n n

/-- Is `2^e ≤ num/den`?  (`num, den > 0`.) -/
def pow2LeRat (e : Int) (num den : Nat) : Bool :=
  if 0 ≤ e then decide (2 ^ e.toNat * den ≤ num) else decide (den ≤ num * 2 ^ e.natAbs)

/-- `⌊log2 (num/den)⌋` for `num, den > 0`: start two below the bitlength
difference (always a lower bound) and climb at most four steps. -/
def floorLog2Rat (num den : Nat) : Int :=
  let g : Int := (bitlen num : Int) - (bitlen den : Int) - 2
  let e1 := if pow2LeRat (g + 1) num den then g + 1 else g
  let e2 := if pow2LeRat (e1 + 1) num den then e1 + 1 else e1
  let e3 := if pow2LeRat (e2 + 1) num den then e2 + 1 else e2
  if pow2LeRat (e3 + 1) num den then e3 + 1 else e3

/-- `(num/den) / 2^F` as a fraction. -/
def ratShift (num den : Nat) (F : Int) : Nat × Nat :=
  if 0 ≤ F then (num, den * 2 ^ F.toNat) else (num * 2 ^ F.natAbs, den)

/-- Round the positive rational `num/den` to the IEEE-754 binary64 grid
(53-bit significand, exponent down to the subnormal step `2^-1074`), ties to
even: the rounding both `float(str)` and `float(int)` perform.  Returns the
value as `(M, F)` with value `M * 2^F`, or `Option.none` when the rounded
result reaches `2^1024` (binary64 overflow). -/
def fitDouble (num den : Nat) : Option (Nat × Int) :=
  if num = 0 then some (0, 0)
  else
    let e := floorLog2Rat num den
    let F : Int := max (e - 52) (-1074)
    let scaled := ratShift num den F
    let M := roundHalfEven scaled.1 scaled.2
    if 0 ≤ F then
      if decide (2 ^ 1024 ≤ M * 2 ^ F.toNat) then Option.none else some (M, F)
    else some (M, F)

/-- The value of a Python float as `format_price` observes it through
`f"{x:,.0f}"`: a finite value is reduced to its sign and its ties-to-even
integral rounding (so `-0.2` keeps the sign and renders `-0`, exactly as
Python prints it); infinities and NaN render as `inf`/`nan`. -/
inductive PyNum where
  | finite (neg : Bool) (mag : Nat)
  | inf (neg : Bool)
  | nan
deriving DecidableEq, Repr

/-- `f"{x:,.0f}"` magnitude of the binary64 value `M * 2^F`: exact for
`F ≥ 0`, ties-to-even integral rounding otherwise. -/
def dotZeroMag (M : Nat) (F : Int) : Nat :=
  if 0 ≤ F then M * 2 ^ F.toNat else roundHalfEven M (2 ^ F.natAbs)

/-- Outcome of `float(price)` inside `format_price`: a value, a
`ValueError`/`TypeError` (caught by the `except` clause at line 23), or an
`OverflowError` (raised by `float` on an int with magnitude `≥ 2^1024`,
absent from the `except` tuple, hence propagating to the caller). -/
inductive FloatConv where
  | ok (x : PyNum)
  | badValue
  | tooBig
deriving DecidableEq, Repr

/-- Parse the unsigned body of a Python float string - `digitpart`,
optional `.` and fractional `digitpart`, optional `e`/`E` exponent with
optional sign - returning the mantissa digits' value `N` and the decimal
exponent `E` with value `N * 10^E`; `Option.none` on any leftover or missing
digits (Python `ValueError`). -/
def parseFloatTail (cs : List Char) : Option (Nat × Int) :=
  let ipr := digitsPartAux cs []
  let fpr :=
    match ipr.2 with
    | '.' :: r => digitsPartAux r []
    | _ => ([], ipr.2)
  if ipr.1.isEmpty && fpr.1.isEmpty then Option.none
  else
    match fpr.2 with
    | [] => some (natOfDigits (ipr.1 ++ fpr.1), -(fpr.1.length : Int))
    | c :: r3 =>
      if c = 'e' ∨ c = 'E' then
        let signed :=
          match r3 with
          | '+' :: r => (false, r)
          | '-' :: r => (true, r)
          | r => (false, r)
        let edr := digitsPartAux signed.2 []
        if edr.1.isEmpty || !edr.2.isEmpty then Option.none
        else
          let ev : Int :=
            if signed.1 then -(natOfDigits edr.1 : Int) else (natOfDigits edr.1 : Int)
          some (natOfDigits (ipr.1 ++ fpr.1), ev - (fpr.1.length : Int))
      else Option.none

/-- Python `float(str)` composed with the `:,.0f` reading: strip surrounding
whitespace, optional sign, then `inf`/`infinity`/`nan` (case-insensitive) or
a decimal literal; the decimal value is rounded to binary64 (overflowing
magnitudes give `inf`, as `float("1e400")` does) and then reduced by
`dotZeroMag`. -/
def pyFloatOfChars (cs0 : List Char) : FloatConv :=
  let cs1 := cs0.dropWhile isPySpace
  let cs := (cs1.reverse.dropWhile isPySpace).reverse
  let signed :=
    match cs with
    | '+' :: r => (false, r)
    | '-' :: r => (true, r)
    | r => (false, r)
  let lowered := signed.2.map charLower
  if lowered = ['i', 'n', 'f'] ∨ lowered = ['i', 'n', 'f', 'i', 'n', 'i', 't', 'y'] then
    FloatConv.ok (PyNum.inf signed.1)
  else if lowered = ['n', 'a', 'n'] then
    FloatConv.ok PyNum.nan
  else
    match parseFloatTail signed.2 with
    | Option.none => FloatConv.badValue
    | some (N, E) =>
      let frac :=
        if 0 ≤ E then (N * 10 ^ E.toNat, 1) else (N, 10 ^ E.natAbs)
      match fitDouble frac.1 frac.2 with
      | Option.none => FloatConv.ok (PyNum.inf signed.1)
      | some (M, F) => FloatConv.ok (PyNum.finite signed.1 (dotZeroMag M F))

/-- `float(price)` composed with the `:,.0f` reading, per input class:
`float(None)` raises `TypeError`; an int is rounded to binary64 (magnitudes
`≥ 2^1024` raise `OverflowError`, which line 23 does not catch); a float
converts to itself; a string goes through `pyFloatOfChars`. -/
def pyToNumber : PyVal → FloatConv
  | PyVal.none => FloatConv.badValue
  | PyVal.int n =>
    if n = 0 then FloatConv.ok (PyNum.finite false 0)
    else
      match fitDouble n.natAbs 1 with
      | Option.none => FloatConv.tooBig
      | some (M, F) => FloatConv.ok (PyNum.finite (decide (n < 0)) (dotZeroMag M F))
  | PyVal.float neg m e => FloatConv.ok (PyNum.finite neg (dotZeroMag m e))
  | PyVal.str s => pyFloatOfChars s.toList

/-- Insert a space after every third character of a least-significant-first
digit list: the effect of Python `f"{x:,.0f}".replace(",", " ")` read from the
right. -/
def sepRev : List Char → List Char
  | a :: b :: c :: d :: rest => a :: b :: c :: ' ' :: sepRev (d :: rest)
  | ds => ds

/-- `f"{n:,.0f}".replace(",", " ")` for a natural number: decimal digits
grouped in threes from the right, separated by spaces. -/
def groupNat (n : Nat) : String :=
  String.mk (sepRev (Nat.toDigits 10 n).reverse).reverse

/-- `f"{x:,.0f}".replace(",", " ")` on a converted value: grouped digits with
a leading minus for negative values (including `-0`, which Python prints for
negative values rounding to zero); `inf`/`nan` print as themselves. -/
def pyRender : PyNum → String
  | PyNum.finite neg mag => (if neg then "-" else "") ++ groupNat mag
  | PyNum.inf neg => (if neg then "-" else "") ++ "inf"
  | PyNum.nan => "nan"

/-- `ProductService.format_price` (product_service.py lines 17-24):
`price_float = float(price) if price else 0`, formatted with `:,.0f` and
commas replaced by spaces; `ValueError`/`TypeError` yields `"0"`.
`Option.none` models an exception propagating out of the method (the
`OverflowError` of `float` on a too-large int, which the `except` tuple does
not include). -/
def format_price (price : PyVal) : Option String :=
  if pyTruthy price then
    match pyToNumber price with
    | FloatConv.ok x => some (pyRender x)
    | FloatConv.badValue => some "0"
    | FloatConv.tooBig => Option.none
  else some "0"

/-- The dict returned by `AIService.extract_search_params`.  The `>3`-word
fallback dict of the source omits the `translated_keywords` key entirely;
consumers read it with `.get`, so an absent key and an explicit `None` are
observationally equal and both are embedded as `Option.none`. -/
structure SearchParams where
  search_query : Option String
  translated_keywords : Option String
  min_price : Option Int
  max_price : Option Int
  category_hint : Option String
  is_product_search : Bool
deriving DecidableEq, Repr

/-- Outcome of the model call plus defensive JSON parsing inside
`extract_search_params` (lines 179-197): `success` carries the parsed
parameter dict; `failure` covers a transport/API error, a reply without
braces, and a `json.loads` failure - all are caught by the same `except`. -/
inductive ExtractOutcome where
  | failure
  | success (params : SearchParams)
deriving DecidableEq, Repr

/-- Accumulator-based whitespace splitting: `acc` holds the reversed current
word. -/
def wordsAux : List Char → List Char → List String
  | [], acc => if acc.isEmpty then [] else [String.mk acc.reverse]
  | c :: rest, acc =>
    if c.isWhitespace then
      if acc.isEmpty then wordsAux rest []
      else String.mk acc.reverse :: wordsAux rest []
    else wordsAux rest (c :: acc)

/-- Python `str.split()` with no arguments: split on whitespace runs,
discarding empty pieces. -/
def split_words (s : String) : List String := wordsAux s.toList []

/-- `AIService.extract_search_params` (lines 155-219), with the model call and
JSON parsing abstracted into an `ExtractOutcome`.  The function is total: no
exception escapes, matching the blanket `except Exception` of the source. -/
def extract_search_params (outcome : ExtractOutcome) (user_message : String) :
    SearchParams :=
  match outcome with
  | ExtractOutcome.success params => params
  | ExtractOutcome.failure =>
    if (split_words user_message).length ≤ 3 then
      { search_query := some user_message, translated_keywords := Option.none,
        min_price := Option.none, max_price := Option.none,
        category_hint := Option.none, is_product_search := true }
    else
      { search_query := some user_message, translated_keywords := Option.none,
        min_price := Option.none, max_price := Option.none,
        category_hint := Option.none, is_product_search := false }

/-- A catalog row as consumed by `ai_search`: the merge logic reads only the
`id` key; the title stands for the remaining display fields. -/
structure Product where
  id : Nat
  title : String
deriving DecidableEq, Repr

/-- `ProductService.search_products` viewed as a collaborator: a function from
`(query, min_price, max_price, limit)` to the returned rows.  The URL/price
enrichment loop of the source mutates each dict in place and neither filters
nor reorders, so it is identity on this abstraction. -/
abbrev Catalog := Option String → Option Int → Option Int → Nat → List Product

/-- Result of `ProductService.ai_search`, extended with an observation trace:
`calls` records, in order, the `(query, limit)` arguments of every
`search_products` invocation the run performed. -/
structure AISearchResult where
  products : List Product
  is_product_search : Bool
  calls : List (Option String × Nat)
deriving DecidableEq, Repr

/-- Python `str.lower()`, character by character, over the Latin and
Cyrillic repertoire of `charLower`. -/
def pyLower (s : String) : String := String.mk (s.toList.map charLower)

/-- The guard of the second lookup (product_service.py line 133):
`if translated and query and translated.lower() != query.lower()`. -/
def secondLookupNeeded (translated query : Option String) : Bool :=
  match translated, query with
  | some t, some q => !t.isEmpty && !q.isEmpty && (pyLower t != pyLower q)
  | _, _ => false

/-- `ProductService.ai_search` (lines 106-147) beginning after parameter
extraction: the primary lookup with the extracted filters capped at 5, the
optional secondary lookup with `translated_keywords`, and the merge that
appends a secondary row only when its id is not among the primary ids
(`existing_ids` is computed once, before the append loop, exactly as in the
source). -/
def ai_search (extracted : SearchParams) (catalog : Catalog) : AISearchResult :=
  if !extracted.is_product_search then
    { products := [], is_product_search := false, calls := [] }
  else
    let products :=
      catalog extracted.search_query extracted.min_price extracted.max_price 5
    if secondLookupNeeded extracted.translated_keywords extracted.search_query then
      let more_products :=
        catalog extracted.translated_keywords extracted.min_price
          extracted.max_price 5
      let existing_ids := products.map Product.id
      { products :=
          products ++ more_products.filter (fun p => !(existing_ids.contains p.id)),
        is_product_search := true,
        calls := [(extracted.search_query, 5), (extracted.translated_keywords, 5)] }
    else
      { products := products, is_product_search := true,
        calls := [(extracted.search_query, 5)] }

/-- `max_retries` of `get_response` (line 259). -/
def max_retries : Nat := 4

/-- `base_delay` of `get_response` (line 260), in seconds. -/
def base_delay : Nat := 3

/-- Does `needle` occur at the head of the character list? -/
def charsStart : List Char → List Char → Bool
  | [], _ => true
  | _ :: _, [] => false
  | a :: as, b :: bs => a == b && charsStart as bs

/-- Does `needle` occur anywhere in the character list? -/
def charsHave (needle : List Char) : List Char → Bool
  | [] => charsStart needle []
  | c :: rest => charsStart needle (c :: rest) || charsHave needle rest

/-- Python `needle in hay` on strings. -/
def strHas (hay needle : String) : Bool := charsHave needle.toList hay.toList

/-- Python `str.strip()`: remove leading and trailing whitespace. -/
def pyStrip (s : String) : String :=
  String.mk
    (((s.toList.dropWhile Char.isWhitespace).reverse.dropWhile
        Char.isWhitespace).reverse)

/-- The rate-limit classifier of `get_response` (line 290):
`"429" in error_msg or "ResourceExhausted" in error_msg`. -/
def isRateLimit (msg : String) : Bool :=
  strHas msg "429" || strHas msg "ResourceExhausted"

/-- The fixed apologetic fallback returned at line 300 when the final attempt
fails. -/
def fallbackText : String :=
  "Kechirasiz, hozirda texnik xatolik yuz berdi. Iltimos, birozdan so\x27ng qayta urinib ko\x27ring."

/-- The post-loop return at lines 304-307; the loop always returns from its
body, so this value is unreachable, but it is kept for fidelity. -/
def exhaustedText : String := "Kechirasiz, javob olishning imkoni bo\x27lmadi."

/-- Result of the retry loop of `get_response`: the text produced, whether the
`try` body reached its `return` (as opposed to the fallback), the sleeps
performed (in seconds, in order), and how many times the model call was
attempted. -/
structure LoopResult where
  answer : String
  succeeded : Bool
  delays : List Nat
  attempts : Nat
deriving DecidableEq, Repr

/-- The `for attempt in range(max_retries)` loop of `get_response`
(lines 262-302).  `outcomes i` is the result of the model call on attempt `i`
(`Except.ok` carries `response.text`).  On an error: a rate-limit-class
message with attempts remaining sleeps `base_delay * 2 ** attempt` and
continues; otherwise the handler falls through, returning the fallback only
when `attempt == max_retries - 1` and silently continuing to the next
iteration otherwise.  `fuel` is the number of loop iterations left. -/
def retryFrom (outcomes : Nat → Except String String) :
    Nat → Nat → LoopResult
  | _, 0 =>
    { answer := exhaustedText, succeeded := false, delays := [], attempts := 0 }
  | attempt, fuel + 1 =>
    match outcomes attempt with
    | Except.ok text =>
      { answer := pyStrip text, succeeded := true, delays := [], attempts := 1 }
    | Except.error e =>
      if isRateLimit e && decide (attempt < max_retries - 1) then
        let r := retryFrom outcomes (attempt + 1) fuel
        { r with delays := base_delay * 2 ^ attempt :: r.delays,
                 attempts := r.attempts + 1 }
      else if attempt = max_retries - 1 then
        { answer := fallbackText, succeeded := false, delays := [],
          attempts := 1 }
      else
        let r := retryFrom outcomes (attempt + 1) fuel
        { r with attempts := r.attempts + 1 }

/-- The whole retry loop, started at attempt 0 with `max_retries` iterations
available. -/
def retryLoop (outcomes : Nat → Except String String) : LoopResult :=
  retryFrom outcomes 0 max_retries

/-- The context update of the success path (lines 277-284): create the user's
list when absent, append the user turn then the model turn, keep the last 10
entries. -/
def appendTurns (history : List Turn) (userMsg aiResponse : String) :
    List Turn :=
  takeLast 10 (history ++ [Turn.mk "user" userMsg, Turn.mk "model" aiResponse])

/-- Observable result of one `AIService.get_response` invocation: the returned
pair, the context store afterwards, and the sleep/attempt trace. -/
structure RespondResult where
  answer : String
  products : List Product
  store : Store
  delays : List Nat
  attempts : Nat
deriving DecidableEq, Repr

/-- `AIService.get_response` (lines 221-307).  Prompt assembly (lines 233-256)
only reads the store and the knowledge base, so it is not part of the state
transition.  On success the answer is `response.text.strip()` and the given
`products_context or []` is returned unchanged; on a final-attempt failure
the fixed fallback and the empty list are returned and the store is left
untouched. -/
def get_response (store : Store) (user_id : Nat) (user_message : String)
    (products_context : Option (List Product))
    (outcomes : Nat → Except String String) : RespondResult :=
  let products := products_context.getD []
  let r := retryLoop outcomes
  if r.succeeded then
    { answer := r.answer,
      products := products,
      store := storeSet store user_id
        (appendTurns ((storeGet store user_id).getD []) user_message r.answer),
      delays := r.delays,
      attempts := r.attempts }
  else
    { answer := r.answer, products := [], store := store, delays := r.delays,
      attempts := r.attempts }

/-- `AIService.clear_user_context` (lines 309-312): delete the user's entry
when present. -/
def clear_user_context (store : Store) (user_id : Nat) : Store :=
  storeDel store user_id

/-- The flat turn list produced by a sequence of exchanges: for each pair the
user turn followed by the model turn. -/
def turnsOf : List (String × String) → List Turn
  | [] => []
  | p :: ts => Turn.mk "user" p.1 :: Turn.mk "model" p.2 :: turnsOf ts

/-- One user's context history across a run of successful exchanges: each
exchange applies the append-and-trim step of lines 277-284. -/
def runTurns (ts : List (String × String)) (init : List Turn) : List Turn :=
  ts.foldl (fun h p => appendTurns h p.1 p.2) init

/-- An operation on the context store: a successful `get_response` turn (the
model call returns `modelText`) or a `clear_user_context`. -/
inductive StoreOp where
  | respond (uid : Nat) (msg : String) (modelText : String)
  | clear (uid : Nat)
deriving DecidableEq, Repr

/-- Apply one store operation through the embedded service functions. -/
def applyOp (s : Store) : StoreOp → Store
  | StoreOp.respond uid msg t =>
    (get_response s uid msg Option.none (fun _ => Except.ok t)).store
  | StoreOp.clear uid => clear_user_context s uid

/-- Run a list of store operations from the empty store (the state at process
start: `self.user_contexts = {}`). -/
def runOps (ops : List StoreOp) : Store := ops.foldl applyOp []

/-- A well-formed per-user history: even length, alternating roles starting
with `"user"`. -/
def wfTurns : List Turn → Prop
  | [] => True
  | [_] => False
  | t1 :: t2 :: rest => t1.role = "user" ∧ t2.role = "model" ∧ wfTurns rest

/-- A store is well formed when every stored history is. -/
def storeWF (s : Store) : Prop :=
  ∀ uid h, storeGet s uid = some h → wfTurns h

/-- A concrete always-rate-limited outcome stream. -/
def rlOutcomes : Nat → Except String String :=
  fun _ => Except.error "429 RESOURCE_EXHAUSTED"

/-- A concrete outcome stream whose first call fails with a non-rate-limit
error and whose later calls succeed. -/
def mixedOutcomes : Nat → Except String String :=
  fun i => if i = 0 then Except.error "boom" else Except.ok "Salom"

/-- A concrete outcome stream that always fails with a non-rate-limit
error. -/
def failOutcomes : Nat → Except String String := fun _ => Except.error "boom"

/-- A two-language demo catalog used by the witnesses. -/
def demoCatalog : Catalog := fun q _ _ _ =>
  if q = some "televizor" then
    [Product.mk 1 "Televizor A", Product.mk 2 "Televizor B"]
  else if q = some "telewizor" then
    [Product.mk 2 "Televizor B", Product.mk 3 "Televizor C"]
  else []

/-- A conversational (non-product) intent used by the witnesses. -/
def convParams : SearchParams :=
  { search_query := some "do-kon qayerda joylashgan", translated_keywords := Option.none,
    min_price := Option.none, max_price := Option.none,
    category_hint := Option.none, is_product_search := false }

/-- A bilingual product intent used by the witnesses. -/
def prodParams : SearchParams :=
  { search_query := some "televizor", translated_keywords := some "telewizor",
    min_price := Option.none, max_price := Option.none,
    category_hint := Option.none, is_product_search := true }

/-- A product intent whose Cyrillic translation equals its query up to
case. -/
def dupParams : SearchParams :=
  { search_query := some "телевизор", translated_keywords := some "Телевизор",
    min_price := Option.none, max_price := Option.none,
    category_hint := Option.none, is_product_search := true }

/-- Twenty concrete exchanges used by the context-bound witness. -/
def turns20 : List (String × String) :=
  [("q01", "a01"), ("q02", "a02"), ("q03", "a03"), ("q04", "a04"),
   ("q05", "a05"), ("q06", "a06"), ("q07", "a07"), ("q08", "a08"),
   ("q09", "a09"), ("q10", "a10"), ("q11", "a11"), ("q12", "a12"),
   ("q13", "a13"), ("q14", "a14"), ("q15", "a15"), ("q16", "a16"),
   ("q17", "a17"), ("q18", "a18"), ("q19", "a19"), ("q20", "a20")]

/- ------------------------------------------------------------------ -/
/- Helper lemmas                                                      -/
/- ------------------------------------------------------------------ -/

theorem takeLast_length_le (n : Nat) (l : List α) : (takeLast n l).length ≤ n := by
  simp only [takeLast, List.length_drop]
  omega

theorem takeLast_eq_of_le {n : Nat} {l : List α} (h : l.length ≤ n) :
    takeLast n l = l := by
  simp [takeLast, Nat.sub_eq_zero_of_le h]

theorem takeLast_append_takeLast (n : Nat) (x y : List α) :
    takeLast n (takeLast n x ++ y) = takeLast n (x ++ y) := by
  rcases le_or_lt x.length n with h | h
  · rw [takeLast_eq_of_le h]
  · simp only [takeLast, List.drop_append_eq_append_drop, List.drop_drop,
      List.length_append, List.length_drop]
    congr 1
    · congr 1
      omega
    · congr 1
      omega

theorem appendTurns_length_le (h : List Turn) (u m : String) :
    (appendTurns h u m).length ≤ 10 :=
  takeLast_length_le 10 _

theorem turnsOf_length (ts : List (String × String)) :
    (turnsOf ts).length = 2 * ts.length := by
  induction ts with
  | nil => rfl
  | cons p ts ih =>
    simp only [turnsOf, List.length_cons, ih]
    omega

theorem turnsOf_append (a b : List (String × String)) :
    turnsOf (a ++ b) = turnsOf a ++ turnsOf b := by
  induction a with
  | nil => rfl
  | cons p a ih => simp [turnsOf, ih]

theorem mem_turnsOf {t : Turn} :
    ∀ {ts : List (String × String)}, t ∈ turnsOf ts →
      ∃ p ∈ ts, t = Turn.mk "user" p.1 ∨ t = Turn.mk "model" p.2 := by
  intro ts
  induction ts with
  | nil => intro h; simp [turnsOf] at h
  | cons p ts ih =>
    intro h
    simp only [turnsOf, List.mem_cons] at h
    rcases h with h | h | h
    · exact ⟨p, List.mem_cons_self p ts, Or.inl h⟩
    · exact ⟨p, List.mem_cons_self p ts, Or.inr h⟩
    · obtain ⟨q, hq, ho⟩ := ih h
      exact ⟨q, List.mem_cons_of_mem p hq, ho⟩

theorem runTurns_eq :
    ∀ (ts : List (String × String)) (init : List Turn), init.length ≤ 10 →
      runTurns ts init = takeLast 10 (init ++ turnsOf ts) := by
  intro ts
  induction ts with
  | nil =>
    intro init h
    simp [runTurns, turnsOf, takeLast_eq_of_le h]
  | cons p ts ih =>
    intro init _
    have hstep : runTurns (p :: ts) init = runTurns ts (appendTurns init p.1 p.2) := rfl
    rw [hstep, ih _ (appendTurns_length_le init p.1 p.2)]
    show takeLast 10 (takeLast 10 (init ++ _) ++ turnsOf ts) = _
    rw [takeLast_append_takeLast, List.append_assoc]
    rfl

theorem wfTurns_append (u m : String) :
    ∀ l, wfTurns l → wfTurns (l ++ [Turn.mk "user" u, Turn.mk "model" m])
  | [], _ => by simp [wfTurns]
  | [_], h => by simp [wfTurns] at h
  | t1 :: t2 :: rest, h => by
    obtain ⟨h1, h2, h3⟩ := h
    exact ⟨h1, h2, wfTurns_append u m rest h3⟩

theorem wfTurns_drop_two : ∀ l, wfTurns l → wfTurns (l.drop 2)
  | [], _ => trivial
  | [_], h => by simp [wfTurns] at h
  | _ :: _ :: _, h => h.2.2

theorem wfTurns_drop_even (k : Nat) :
    ∀ l : List Turn, wfTurns l → wfTurns (l.drop (2 * k)) := by
  induction k with
  | zero => intro l h; simpa using h
  | succ k ih =>
    intro l h
    have h2 : 2 * (k + 1) = 2 + 2 * k := by omega
    rw [h2, ← List.drop_drop]
    exact ih _ (wfTurns_drop_two l h)

theorem wfTurns_even : ∀ l, wfTurns l → l.length % 2 = 0
  | [], _ => rfl
  | [_], h => by simp [wfTurns] at h
  | _ :: _ :: rest, h => by
    have hr := wfTurns_even rest h.2.2
    simp only [List.length_cons]
    omega

theorem wfTurns_appendTurns {h : List Turn} (hw : wfTurns h) (u m : String) :
    wfTurns (appendTurns h u m) := by
  have hev := wfTurns_even h hw
  have hap := wfTurns_append u m h hw
  unfold appendTurns takeLast
  have hlen : (h ++ [Turn.mk "user" u, Turn.mk "model" m]).length = h.length + 2 := by
    simp
  obtain ⟨k, hk⟩ :
      ∃ k, (h ++ [Turn.mk "user" u, Turn.mk "model" m]).length - 10 = 2 * k := by
    refine ⟨((h.length + 2) - 10) / 2, ?_⟩
    rw [hlen]
    omega
  rw [hk]
  exact wfTurns_drop_even k _ hap

theorem storeGet_storeSet (s : Store) (k : Nat) (v : List Turn) (k' : Nat) :
    storeGet (storeSet s k v) k' = if k' = k then some v else storeGet s k' := by
  induction s with
  | nil =>
    by_cases h : k = k'
    · simp [storeSet, storeGet, h]
    · simp [storeSet, storeGet, h, Ne.symm h]
  | cons p rest ih =>
    obtain ⟨a, w⟩ := p
    by_cases hak : a = k
    · subst hak
      by_cases h : a = k'
      · simp [storeSet, storeGet, h]
      · simp [storeSet, storeGet, h, Ne.symm h]
    · by_cases h : a = k'
      · have hk'k : ¬ k' = k := fun hh => hak (h.trans hh)
        simp [storeSet, storeGet, hak, h, hk'k]
      · simp [storeSet, storeGet, hak, h, ih]

theorem storeGet_storeDel (s : Store) (k k' : Nat) :
    storeGet (storeDel s k) k' = if k' = k then Option.none else storeGet s k' := by
  induction s with
  | nil =>
    by_cases h : k' = k <;> simp [storeDel, storeGet, h]
  | cons p rest ih =>
    obtain ⟨a, w⟩ := p
    by_cases hak : a = k
    · subst hak
      by_cases h : a = k'
      · subst h
        simp [storeDel, storeGet, ih]
      · simp [storeDel, storeGet, ih, h, Ne.symm h]
    · by_cases h : a = k'
      · have hk'k : ¬ k' = k := fun hh => hak (h.trans hh)
        simp [storeDel, storeGet, hak, h, hk'k]
      · simp [storeDel, storeGet, hak, h, ih]

theorem applyOp_wf {s : Store} (hs : storeWF s) (op : StoreOp) :
    storeWF (applyOp s op) := by
  cases op with
  | respond uid msg t =>
    intro u h hget
    have hred : applyOp s (StoreOp.respond uid msg t) =
        storeSet s uid
          (appendTurns ((storeGet s uid).getD []) msg (pyStrip t)) := by
      simp [applyOp, get_response, retryLoop, retryFrom, max_retries]
    rw [hred, storeGet_storeSet] at hget
    by_cases hu : u = uid
    · rw [if_pos hu] at hget
      have hh := Option.some.inj hget
      subst hh
      have hold : wfTurns ((storeGet s uid).getD []) := by
        cases ho : storeGet s uid with
        | none => simp [ho, wfTurns]
        | some l => simpa [ho] using hs uid l ho
      exact wfTurns_appendTurns hold msg (pyStrip t)
    · rw [if_neg hu] at hget
      exact hs u h hget
  | clear uid =>
    intro u h hget
    simp only [applyOp, clear_user_context] at hget
    rw [storeGet_storeDel] at hget
    by_cases hu : u = uid
    · rw [if_pos hu] at hget
      exact Option.noConfusion hget
    · rw [if_neg hu] at hget
      exact hs u h hget

theorem runOps_wf (ops : List StoreOp) : storeWF (runOps ops) := by
  have hgen : ∀ (l : List StoreOp) (s : Store), storeWF s →
      storeWF (l.foldl applyOp s) := by
    intro l
    induction l with
    | nil => intro s hs; exact hs
    | cons op l ih => intro s hs; exact ih _ (applyOp_wf hs op)
  exact hgen ops [] (fun uid h hget => by simp [storeGet] at hget)

theorem demoCatalog_nodup :
    ∀ q mi ma n, ((demoCatalog q mi ma n).map Product.id).Nodup := by
  intro q mi ma n
  unfold demoCatalog
  split
  · decide
  · split
    · decide
    · decide

/- ------------------------------------------------------------------ -/
/- Claims                                                             -/
/- ------------------------------------------------------------------ -/

/-- Claim C1: if every model call made by `get_response` raises a
rate-limit-class error (message containing "429" or "ResourceExhausted"),
the call is attempted exactly 4 times in total, the three inter-attempt
sleeps are 3, 6 and 12 seconds, and the invocation returns the fixed
apologetic fallback string paired with the empty product list. -/
theorem c1_retry_bound (store : Store) (uid : Nat) (msg : String)
    (prods : Option (List Product)) (outcomes : Nat → Except String String)
    (hrl : ∀ i, i < max_retries →
      ∃ e, outcomes i = Except.error e ∧ isRateLimit e = true) :
    (get_response store uid msg prods outcomes).attempts = 4 ∧
    (get_response store uid msg prods outcomes).delays = [3, 6, 12] ∧
    (get_response store uid msg prods outcomes).answer = fallbackText ∧
    (get_response store uid msg prods outcomes).products = [] := by
  obtain ⟨e0, he0, hb0⟩ := hrl 0 (by decide)
  obtain ⟨e1, he1, hb1⟩ := hrl 1 (by decide)
  obtain ⟨e2, he2, hb2⟩ := hrl 2 (by decide)
  obtain ⟨e3, he3, hb3⟩ := hrl 3 (by decide)
  simp [get_response, retryLoop, retryFrom, he0, he1, he2, he3, hb0, hb1, hb2,
    hb3, max_retries, base_delay]

/-- Witness for C1 at a concrete always-rate-limited outcome stream. -/
theorem c1_retry_bound_witness :
    (∀ i, i < max_retries →
      ∃ e, rlOutcomes i = Except.error e ∧ isRateLimit e = true) ∧
    ((get_response [] 1 "salom" Option.none rlOutcomes).attempts = 4 ∧
     (get_response [] 1 "salom" Option.none rlOutcomes).delays = [3, 6, 12] ∧
     (get_response [] 1 "salom" Option.none rlOutcomes).answer = fallbackText ∧
     (get_response [] 1 "salom" Option.none rlOutcomes).products = []) :=
  ⟨fun _ _ => ⟨"429 RESOURCE_EXHAUSTED", rfl, by decide⟩,
   c1_retry_bound [] 1 "salom" Option.none rlOutcomes
     (fun _ _ => ⟨"429 RESOURCE_EXHAUSTED", rfl, by decide⟩)⟩

/-- Claim C2: when extraction fails (model error or JSON parse failure),
`extract_search_params` still returns a parameter record - no exception
escapes - and the fallback is decided by word count: at most 3
whitespace-separated words gives `is_product_search = true` with
`search_query` the utterance; more than 3 words gives
`is_product_search = false`. -/
theorem c2_extract_fallback (msg : String) :
    ((split_words msg).length ≤ 3 →
      (extract_search_params ExtractOutcome.failure msg).is_product_search = true ∧
      (extract_search_params ExtractOutcome.failure msg).search_query = some msg) ∧
    (3 < (split_words msg).length →
      (extract_search_params ExtractOutcome.failure msg).is_product_search = false ∧
      (extract_search_params ExtractOutcome.failure msg).search_query = some msg) := by
  constructor
  · intro h
    simp [extract_search_params, h]
  · intro h
    have hn : ¬ (split_words msg).length ≤ 3 := by omega
    simp [extract_search_params, hn]

/-- Witness for C2: a two-word utterance falls back to a direct product
search, a five-word utterance falls back to conversational mode. -/
theorem c2_extract_fallback_witness :
    ((split_words "arzon televizor").length ≤ 3 ∧
      (extract_search_params ExtractOutcome.failure "arzon televizor").is_product_search = true ∧
      (extract_search_params ExtractOutcome.failure "arzon televizor").search_query =
        some "arzon televizor") ∧
    (3 < (split_words "eng yaxshi telefon qaysi biri").length ∧
      (extract_search_params ExtractOutcome.failure "eng yaxshi telefon qaysi biri").is_product_search
        = false) :=
  ⟨⟨by decide, (c2_extract_fallback "arzon televizor").1 (by decide)⟩,
   ⟨by decide,
    ((c2_extract_fallback "eng yaxshi telefon qaysi biri").2 (by decide)).1⟩⟩

/-- Claim C4: the context store after `get_response` is the input store
whenever the retry loop did not reach its success return (every failed or
retried attempt leaves it untouched), and on the success path it is exactly
the input store with the user turn followed by the model turn appended (then
capped) for that user, in one step - no intermediate store recording the
user message without its answer exists in the transition. -/
theorem c4_store_atomic (store : Store) (uid : Nat) (msg : String)
    (prods : Option (List Product)) (outcomes : Nat → Except String String) :
    (get_response store uid msg prods outcomes).store =
      if (retryLoop outcomes).succeeded then
        storeSet store uid
          (appendTurns ((storeGet store uid).getD []) msg
            (retryLoop outcomes).answer)
      else store := by
  cases hsucc : (retryLoop outcomes).succeeded <;>
    simp [get_response, hsucc]

/-- Claim C5 (amended): when every attempt of the retry loop fails - with
errors of any class - `get_response` returns the fixed apologetic fallback
with the empty product list, leaves the store untouched, and consumes all 4
attempts; non-rate-limit errors on non-final attempts are silently retried
(the embedding is a total function, so no exception reaches the caller). -/
theorem c5_all_failures_fallback (store : Store) (uid : Nat) (msg : String)
    (prods : Option (List Product)) (outcomes : Nat → Except String String)
    (hfail : ∀ i, i < max_retries → ∃ e, outcomes i = Except.error e) :
    (get_response store uid msg prods outcomes).answer = fallbackText ∧
    (get_response store uid msg prods outcomes).products = [] ∧
    (get_response store uid msg prods outcomes).store = store ∧
    (get_response store uid msg prods outcomes).attempts = max_retries := by
  obtain ⟨e0, he0⟩ := hfail 0 (by decide)
  obtain ⟨e1, he1⟩ := hfail 1 (by decide)
  obtain ⟨e2, he2⟩ := hfail 2 (by decide)
  obtain ⟨e3, he3⟩ := hfail 3 (by decide)
  cases hb0 : isRateLimit e0 <;> cases hb1 : isRateLimit e1 <;>
    cases hb2 : isRateLimit e2 <;>
    simp [get_response, retryLoop, retryFrom, he0, he1, he2, he3, hb0, hb1,
      hb2, max_retries, base_delay]

/-- Witness for the amended C5 at a concrete always-failing non-rate-limit
outcome stream. -/
theorem c5_all_failures_fallback_witness :
    (∀ i, i < max_retries → ∃ e, failOutcomes i = Except.error e) ∧
    ((get_response [] 1 "salom" Option.none failOutcomes).answer = fallbackText ∧
     (get_response [] 1 "salom" Option.none failOutcomes).products = [] ∧
     (get_response [] 1 "salom" Option.none failOutcomes).store = [] ∧
     (get_response [] 1 "salom" Option.none failOutcomes).attempts = max_retries) :=
  ⟨fun _ _ => ⟨"boom", rfl⟩,
   c5_all_failures_fallback [] 1 "salom" Option.none failOutcomes
     (fun _ _ => ⟨"boom", rfl⟩)⟩

/-- Counterexample to claim C5 as stated: an invocation whose model call
raises a non-rate-limit error ("boom" on attempt 0) does not yield the
apologetic fallback with an empty product list - the error is silently
retried and the second attempt's answer is returned with the given
products. -/
theorem c5_counterexample :
    (get_response [] 1 "salom" (some [Product.mk 1 "Televizor"]) mixedOutcomes).answer
        = "Salom" ∧
    (get_response [] 1 "salom" (some [Product.mk 1 "Televizor"]) mixedOutcomes).answer
        ≠ fallbackText ∧
    (get_response [] 1 "salom" (some [Product.mk 1 "Televizor"]) mixedOutcomes).products
        = [Product.mk 1 "Televizor"] := by
  refine ⟨by decide, by decide, by decide⟩

/-- Claim C6: a non-product intent makes `ai_search` return the empty list
paired with `false` immediately, with an empty catalog-call trace - no
lookup is performed. -/
theorem c6_non_product_skips (params : SearchParams) (catalog : Catalog)
    (h : params.is_product_search = false) :
    ai_search params catalog =
      { products := [], is_product_search := false, calls := [] } := by
  simp [ai_search, h]

/-- Witness for C6 at a concrete conversational intent and catalog. -/
theorem c6_non_product_skips_witness :
    convParams.is_product_search = false ∧
    ai_search convParams demoCatalog =
      { products := [], is_product_search := false, calls := [] } :=
  ⟨rfl, c6_non_product_skips convParams demoCatalog rfl⟩

/-- Claim C9 (amended): for every `None`, string or float input, and for
every int that binary64 can hold, `format_price` returns a string and never
raises: a truthy input convertible to a float renders that float with space
thousands-separators and no decimals (`pyRender`), and a falsy input or a
conversion raising `ValueError`/`TypeError` yields `"0"`.  The one escaping
exception - characterised exactly by the final conjunct - is the
`OverflowError` of `float` on a truthy int of magnitude `≥ 2^1024`, which the
`except (ValueError, TypeError)` clause does not catch. -/
theorem c9_format_price_total (v : PyVal) :
    (pyTruthy v = false → format_price v = some "0") ∧
    (pyToNumber v = FloatConv.badValue → format_price v = some "0") ∧
    (∀ x, pyTruthy v = true → pyToNumber v = FloatConv.ok x →
      format_price v = some (pyRender x)) ∧
    (format_price v = Option.none ↔
      (pyTruthy v = true ∧ pyToNumber v = FloatConv.tooBig)) := by
  cases ht : pyTruthy v
  · simp [format_price, ht]
  · cases hx : pyToNumber v <;> simp [format_price, ht, hx]

set_option maxRecDepth 20000 in
/-- Counterexample to claim C9 as stated: at the number input `2^1100`
(truthy), `float` raises `OverflowError` - absent from the
`except (ValueError, TypeError)` tuple at product_service.py line 23 - so
`format_price` propagates an exception instead of returning a string. -/
theorem c9_counterexample :
    pyTruthy (PyVal.int (Int.ofNat (2 ^ 1100))) = true ∧
    format_price (PyVal.int (Int.ofNat (2 ^ 1100))) = Option.none := by
  refine ⟨by decide, by decide⟩

/-- Claim C3: for a product query, `ai_search` lists the primary lookup's
rows first, in catalog order, and every appended row comes from the
secondary lookup and has an id absent from the primary ids; provided each
single catalog lookup returns pairwise-distinct ids (a SQL result set keyed
by the product primary key), the merge has at most one row per id. -/
theorem c3_merge_order (params : SearchParams) (catalog : Catalog)
    (hq : params.is_product_search = true)
    (hcat : ∀ q mi ma n, ((catalog q mi ma n).map Product.id).Nodup) :
    ((ai_search params catalog).products.take
        (catalog params.search_query params.min_price params.max_price 5).length =
      catalog params.search_query params.min_price params.max_price 5) ∧
    (∀ p ∈ (ai_search params catalog).products.drop
        (catalog params.search_query params.min_price params.max_price 5).length,
      p ∈ catalog params.translated_keywords params.min_price params.max_price 5 ∧
        p.id ∉ (catalog params.search_query params.min_price params.max_price 5).map
          Product.id) ∧
    ((ai_search params catalog).products.map Product.id).Nodup := by
  have hmain := hcat params.search_query params.min_price params.max_price 5
  have hsec := hcat params.translated_keywords params.min_price params.max_price 5
  cases hneed : secondLookupNeeded params.translated_keywords params.search_query with
  | false =>
    have hres : ai_search params catalog =
        { products := catalog params.search_query params.min_price params.max_price 5,
          is_product_search := true,
          calls := [(params.search_query, 5)] } := by
      simp [ai_search, hq, hneed]
    rw [hres]
    refine ⟨List.take_length _, ?_, hmain⟩
    intro p hp
    rw [List.drop_length] at hp
    simp at hp
  | true =>
    have hres : ai_search params catalog =
        { products :=
            catalog params.search_query params.min_price params.max_price 5 ++
              (catalog params.translated_keywords params.min_price
                  params.max_price 5).filter
                (fun p =>
                  !(((catalog params.search_query params.min_price
                        params.max_price 5).map Product.id).contains p.id)),
          is_product_search := true,
          calls := [(params.search_query, 5), (params.translated_keywords, 5)] } := by
      simp [ai_search, hq, hneed]
    rw [hres]
    refine ⟨List.take_left _ _, ?_, ?_⟩
    · intro p hp
      rw [List.drop_left] at hp
      rw [List.mem_filter] at hp
      obtain ⟨hmem, hpred⟩ := hp
      refine ⟨hmem, ?_⟩
      simp only [List.contains, Bool.not_eq_true'] at hpred
      simp only [← List.elem_iff]
      intro hc
      rw [hpred] at hc
      exact Bool.noConfusion hc
    · rw [List.map_append]
      apply List.Nodup.append hmain
      · exact List.Nodup.sublist
          (List.Sublist.map _ (List.filter_sublist _)) hsec
      · intro x hx1 hx2
        rw [List.mem_map] at hx2
        obtain ⟨p, hpmem, rfl⟩ := hx2
        rw [List.mem_filter] at hpmem
        obtain ⟨_, hpred⟩ := hpmem
        simp only [List.contains, Bool.not_eq_true'] at hpred
        rw [← List.elem_iff] at hx1
        rw [hpred] at hx1
        exact Bool.noConfusion hx1

/-- Witness for C3 at a concrete bilingual intent and demo catalog. -/
theorem c3_merge_order_witness :
    prodParams.is_product_search = true ∧
    (∀ q mi ma n, ((demoCatalog q mi ma n).map Product.id).Nodup) ∧
    (((ai_search prodParams demoCatalog).products.take
        (demoCatalog prodParams.search_query prodParams.min_price
          prodParams.max_price 5).length =
      demoCatalog prodParams.search_query prodParams.min_price
        prodParams.max_price 5) ∧
     (∀ p ∈ (ai_search prodParams demoCatalog).products.drop
        (demoCatalog prodParams.search_query prodParams.min_price
          prodParams.max_price 5).length,
       p ∈ demoCatalog prodParams.translated_keywords prodParams.min_price
           prodParams.max_price 5 ∧
         p.id ∉ (demoCatalog prodParams.search_query prodParams.min_price
           prodParams.max_price 5).map Product.id) ∧
     ((ai_search prodParams demoCatalog).products.map Product.id).Nodup) :=
  ⟨rfl, demoCatalog_nodup,
   c3_merge_order prodParams demoCatalog rfl demoCatalog_nodup⟩

/-- Claim C7: when the secondary keyword is absent or equals the primary
keyword case-insensitively, `ai_search` performs at most one catalog lookup
(none beyond the primary), returns exactly the product sequence of the same
intent with the secondary keyword omitted, and - for duplicate-free catalog
lookups - contains no duplicate entries. -/
theorem c7_secondary_idempotent (params : SearchParams) (catalog : Catalog)
    (hsec : params.translated_keywords = Option.none ∨
      ∃ t q, params.translated_keywords = some t ∧ params.search_query = some q ∧
        pyLower t = pyLower q)
    (hcat : ∀ q mi ma n, ((catalog q mi ma n).map Product.id).Nodup) :
    (ai_search params catalog).calls.length ≤ 1 ∧
    (ai_search params catalog).products =
      (ai_search { params with translated_keywords := Option.none } catalog).products ∧
    ((ai_search params catalog).products.map Product.id).Nodup := by
  have hneed :
      secondLookupNeeded params.translated_keywords params.search_query = false := by
    rcases hsec with h | ⟨t, q, ht, hq2, heq⟩
    · rw [h]
      cases params.search_query <;> rfl
    · rw [ht, hq2]
      simp [secondLookupNeeded, heq]
  have hneed2 : secondLookupNeeded Option.none params.search_query = false := by
    cases params.search_query <;> rfl
  cases hps : params.is_product_search with
  | false =>
    have h2 : ({ params with translated_keywords := Option.none } :
        SearchParams).is_product_search = false := hps
    simp [ai_search, hps, h2]
  | true =>
    have h2 : ({ params with translated_keywords := Option.none } :
        SearchParams).is_product_search = true := hps
    simp [ai_search, hps, h2, hneed, hneed2]
    exact hcat params.search_query params.min_price params.max_price 5

/-- Witness for C7: a Cyrillic secondary keyword equal to the primary one up
to case (`str.lower()` folds `Телевизор` to `телевизор`). -/
theorem c7_secondary_idempotent_witness :
    (dupParams.translated_keywords = Option.none ∨
      ∃ t q, dupParams.translated_keywords = some t ∧
        dupParams.search_query = some q ∧ pyLower t = pyLower q) ∧
    ((ai_search dupParams demoCatalog).calls.length ≤ 1 ∧
     (ai_search dupParams demoCatalog).products =
       (ai_search { dupParams with translated_keywords := Option.none }
         demoCatalog).products ∧
     ((ai_search dupParams demoCatalog).products.map Product.id).Nodup) :=
  ⟨Or.inr ⟨"Телевизор", "телевизор", rfl, rfl, by decide⟩,
   c7_secondary_idempotent dupParams demoCatalog
     (Or.inr ⟨"Телевизор", "телевизор", rfl, rfl, by decide⟩) demoCatalog_nodup⟩

/-- Claim C8: every append keeps at most the last 10 turns, and after 20
sequential exchanges starting from an empty history the stored history has
exactly 10 turns; any of the 6 oldest exchanges whose user text (resp. model
text) differs from those of the last 5 exchanges is no longer recoverable
from the store. -/
theorem c8_context_bound :
    (∀ (h : List Turn) (u m : String), (appendTurns h u m).length ≤ 10) ∧
    (∀ ts : List (String × String), ts.length = 20 →
      (runTurns ts []).length = 10 ∧
      ∀ p ∈ ts.take 6,
        ((∀ q ∈ ts.drop 15, p.1 ≠ q.1) →
          Turn.mk "user" p.1 ∉ runTurns ts []) ∧
        ((∀ q ∈ ts.drop 15, p.2 ≠ q.2) →
          Turn.mk "model" p.2 ∉ runTurns ts [])) := by
  constructor
  · exact fun h u m => appendTurns_length_le h u m
  · intro ts hlen
    have hrun : runTurns ts [] = turnsOf (ts.drop 15) := by
      rw [runTurns_eq ts [] (by simp), List.nil_append]
      conv_lhs => rw [← List.take_append_drop 15 ts]
      rw [turnsOf_append]
      have h1 : (turnsOf (ts.take 15)).length = 30 := by
        rw [turnsOf_length]
        simp [List.length_take, hlen]
      have h2 : (turnsOf (ts.drop 15)).length = 10 := by
        rw [turnsOf_length]
        simp [List.length_drop, hlen]
      unfold takeLast
      rw [List.length_append, h1, h2]
      have h3 : (30 : Nat) + 10 - 10 = 30 := by norm_num
      rw [h3, ← h1, List.drop_left]
    refine ⟨by rw [hrun, turnsOf_length]; simp [List.length_drop, hlen], ?_⟩
    intro p hp
    constructor
    · intro hne hmem
      rw [hrun] at hmem
      obtain ⟨q, hq, hor⟩ := mem_turnsOf hmem
      rcases hor with h | h
      · injection h with _ h2
        exact hne q hq h2
      · injection h with h1 _
        exact absurd h1 (by decide)
    · intro hne hmem
      rw [hrun] at hmem
      obtain ⟨q, hq, hor⟩ := mem_turnsOf hmem
      rcases hor with h | h
      · injection h with h1 _
        exact absurd h1 (by decide)
      · injection h with _ h2
        exact hne q hq h2

/-- Witness for C8 at 20 concrete exchanges with pairwise-distinct texts. -/
theorem c8_context_bound_witness :
    turns20.length = 20 ∧
    ((runTurns turns20 []).length = 10 ∧
      ∀ p ∈ turns20.take 6,
        ((∀ q ∈ turns20.drop 15, p.1 ≠ q.1) →
          Turn.mk "user" p.1 ∉ runTurns turns20 []) ∧
        ((∀ q ∈ turns20.drop 15, p.2 ≠ q.2) →
          Turn.mk "model" p.2 ∉ runTurns turns20 [])) :=
  ⟨by decide, c8_context_bound.2 turns20 (by decide)⟩

/-- Claim C10: starting from the empty store, any sequence of successful
`get_response` turns and `clear_user_context` calls leaves every stored
per-user history well formed - even length, alternating `"user"`/`"model"`
roles beginning with `"user"` - and `clear_user_context` removes exactly the
targeted user's entry (a no-op when absent) while every other user's entry
reads back unchanged. -/
theorem c10_store_invariants :
    (∀ (ops : List StoreOp) (uid : Nat) (h : List Turn),
      storeGet (runOps ops) uid = some h → wfTurns h) ∧
    (∀ (s : Store) (uid : Nat),
      storeGet (clear_user_context s uid) uid = Option.none ∧
      ∀ v, v ≠ uid → storeGet (clear_user_context s uid) v = storeGet s v) := by
  constructor
  · intro ops uid h hget
    exact runOps_wf ops uid h hget
  · intro s uid
    constructor
    · simp only [clear_user_context]
      rw [storeGet_storeDel, if_pos rfl]
    · intro v hv
      simp only [clear_user_context]
      rw [storeGet_storeDel, if_neg hv]

/-- Witness for C10: one successful turn stores the two alternating turns;
clearing user 1 leaves user 2's view unchanged. -/
theorem c10_store_invariants_witness :
    (storeGet (runOps [StoreOp.respond 1 "salom" "javob"]) 1 =
      some [Turn.mk "user" "salom", Turn.mk "model" "javob"]) ∧
    wfTurns [Turn.mk "user" "salom", Turn.mk "model" "javob"] ∧
    ((2 : Nat) ≠ 1 ∧
      storeGet (clear_user_context [(1, [Turn.mk "user" "a", Turn.mk "model" "b"])] 1) 2 =
        storeGet [(1, [Turn.mk "user" "a", Turn.mk "model" "b"])] 2) :=
  ⟨by decide,
   c10_store_invariants.1 [StoreOp.respond 1 "salom" "javob"] 1
     [Turn.mk "user" "salom", Turn.mk "model" "javob"] (by decide),
   by decide,
   (c10_store_invariants.2 [(1, [Turn.mk "user" "a", Turn.mk "model" "b"])] 1).2
     2 (by decide)⟩

/-- Witness for C9: the fractional string `"1.5"` renders `"2"` (binary64
conversion then ties-to-even `:,.0f`), a large int groups in threes, a
non-numeric string and `None` yield `"0"`. -/
theorem c9_format_price_total_witness :
    (pyTruthy (PyVal.str "1.5") = true ∧
      pyToNumber (PyVal.str "1.5") = FloatConv.ok (PyNum.finite false 2) ∧
      format_price (PyVal.str "1.5") = some (pyRender (PyNum.finite false 2)) ∧
      format_price (PyVal.str "1.5") = some "2") ∧
    (pyToNumber (PyVal.str "abc") = FloatConv.badValue ∧
      format_price (PyVal.str "abc") = some "0") ∧
    (pyTruthy PyVal.none = false ∧ format_price PyVal.none = some "0") ∧
    format_price (PyVal.int 1234567) = some "1 234 567" :=
  ⟨⟨by decide, by decide,
    (c9_format_price_total (PyVal.str "1.5")).2.2.1 (PyNum.finite false 2)
      (by decide) (by decide),
    by decide⟩,
   ⟨by decide, (c9_format_price_total (PyVal.str "abc")).2.1 (by decide)⟩,
   ⟨by decide, (c9_format_price_total PyVal.none).1 (by decide)⟩,
   by decide⟩

end OptomMarket
